/-
Verification of the rcrt-context-builder retrieval/assembly subsystem
(crates/rcrt-context-builder) against its natural-language specification.

The Rust source is shallowly embedded in Lean:
  * `f32` weights, costs and scores become `ℚ` (the claims are about exact
    constants such as 0.1, 0.3, 0.5, 0.95 and about order comparisons, none
    of which depend on binary rounding);
  * `Uuid` becomes `Nat`, `DateTime<Utc>` becomes `Int` (a timestamp);
  * a JSON `context` value is abstracted by the two projections the embedded
    code actually reads: the result of
    `context.get("trigger_event_id").and_then(as_str).and_then(Uuid::parse)`
    (an `Option (Option Nat)`: `none` when the field is absent or not a
    string, `some none` when the string does not parse, `some (some t)`
    when it parses to `t`) and the length of `context.to_string()`;
  * the `breadcrumbs` table is a list of rows, and each SQL query is
    translated clause by clause (WHERE as a filter, ORDER BY as a stable
    sort, LIMIT as `take`);
  * the pgvector distance operator `<=>` is an oracle parameter
    `dist : List ℚ → List ℚ → ℚ`; theorems that need it assume only
    `0 ≤ dist x y`, which holds for the cosine distance;
  * `BinaryHeap<PathNode>` (a min-heap on `cost` via the reversed `Ord`)
    becomes a list with `popMin` removing the leftmost element of minimal
    cost; ties between equal costs are unspecified in `BinaryHeap`, and the
    embedding fixes insertion order;
  * Rust's stable `sort_by` becomes `List.insertionSort` (a stable sort;
    stable sorts agree on every input for a total transitive comparator).
-/
import Mathlib

namespace Rcrt

/-! ### Graph data structures (graph/types.rs) -/

/-- `EdgeType` from graph/types.rs. -/
inductive EdgeType where
  | Causal
  | Temporal
  | TagRelated
  | Semantic
deriving DecidableEq, Repr

/-- `Edge` from graph/types.rs (fields `from`, `to`, `edge_type`, `weight`;
`from`/`to` are renamed `from_id`/`to_id` because `from` is a Lean keyword). -/
structure Edge where
  from_id : Nat
  to_id : Nat
  edge_type : EdgeType
  weight : ℚ
deriving DecidableEq, Repr

/-- `BreadcrumbNode` from graph/types.rs.  `context` is the serialized JSON
payload (the traversal only reads `context.to_string().len()`). -/
structure BreadcrumbNode where
  id : Nat
  schema_name : String
  tags : List String
  context : String
  created_at : Int
  trigger_event_id : Option Nat
deriving DecidableEq, Repr

/-- `SessionGraph` from graph/types.rs, keeping the two fields the path
finder reads: the `nodes` map (as an association list with distinct ids in
well-formed graphs; lookup takes the first match, as `HashMap::get` does for
unique keys) and the `edges` list from which `rebuild_adjacency` is built. -/
structure SessionGraph where
  nodes : List BreadcrumbNode
  edges : List Edge
deriving Repr

/-- `HashMap::get` on `SessionGraph::nodes`. -/
def SessionGraph.nodesGet (g : SessionGraph) (id : Nat) : Option BreadcrumbNode :=
  g.nodes.find? (fun n => n.id == id)

/-- `SessionGraph::neighbors` (graph/types.rs lines 88-93): the adjacency
entry built by `rebuild_adjacency`, which pushes `(to, edge_type, weight)`
onto the entry for `from` for every edge, in edge order.  The entry for
`id` therefore consists of the edges whose `from` field is `id` — the
adjacency is directed. -/
def SessionGraph.neighbors (g : SessionGraph) (id : Nat) : List (Nat × EdgeType × ℚ) :=
  (g.edges.filter (fun e => e.from_id == id)).map (fun e => (e.to_id, e.edge_type, e.weight))

/-! ### Path finder (retrieval/path_finder.rs) -/

/-- `PathNode` from path_finder.rs. -/
structure PathNode where
  id : Nat
  cost : ℚ
  depth : Nat
deriving DecidableEq, Repr

/-- `PathFinder` from path_finder.rs. -/
structure PathFinder where
  max_depth : Nat
  max_results : Nat
deriving Repr

/-- Pop of the `BinaryHeap` min-heap: remove an element of minimal `cost`.
Ties are unspecified in `BinaryHeap`; the embedding removes the leftmost
(i.e. earliest-pushed) element among the minima. -/
def popMin : List PathNode → Option (PathNode × List PathNode)
  | [] => none
  | x :: xs =>
    match popMin xs with
    | none => some (x, [])
    | some (m, rest) => if x.cost ≤ m.cost then some (x, xs) else some (m, x :: rest)

/-- The edge-cost match of `find_paths` (path_finder.rs lines 95-100):
Causal 0.1, Temporal 0.3, TagRelated 0.5, Semantic `1 - weight`. -/
def edgeCostFindPaths (t : EdgeType) (weight : ℚ) : ℚ :=
  match t with
  | EdgeType.Causal => 1/10
  | EdgeType.Temporal => 3/10
  | EdgeType.TagRelated => 1/2
  | EdgeType.Semantic => 1 - weight

/-- The edge-cost match of `find_paths_token_aware` (path_finder.rs lines
175-180): Causal 0.1, TagRelated 0.3, Temporal 0.5, Semantic `1 - weight`.
Note that the constants for Temporal and TagRelated are swapped relative to
`find_paths`. -/
def edgeCostTokenAware (t : EdgeType) (weight : ℚ) : ℚ :=
  match t with
  | EdgeType.Causal => 1/10
  | EdgeType.TagRelated => 3/10
  | EdgeType.Temporal => 1/2
  | EdgeType.Semantic => 1 - weight

/-- `estimate_node_tokens` (path_finder.rs lines 215-217):
`node.context.to_string().len() / 3`. -/
def estimate_node_tokens (node : BreadcrumbNode) : Nat :=
  node.context.length / 3

/-- The neighbor pushes performed at the bottom of both traversal loops:
for each `(m, t, w)` in `neighbors id` with `m` unvisited, push
`{ id := m, cost := cost + edgeCost t w, depth := depth + 1 }`. -/
def pushNeighbors (g : SessionGraph) (edgeCost : EdgeType → ℚ → ℚ)
    (visited : List Nat) (id : Nat) (cost : ℚ) (depth : Nat) : List PathNode :=
  (g.neighbors id).filterMap (fun nbr =>
    if visited.contains nbr.1 then none
    else some { id := nbr.1, cost := cost + edgeCost nbr.2.1 nbr.2.2, depth := depth + 1 })

/-- The `while let Some(...) = heap.pop()` loop of `find_paths`
(path_finder.rs lines 73-109), with fuel making the recursion structural.
The loop strictly decreases `heap.length + #(adjacency entries whose source
is unvisited)`, which starts at most `heap.length + edges.length`, so any
fuel above that bound leaves the result unchanged. -/
def findPathsLoop (pf : PathFinder) (g : SessionGraph) :
    Nat → List PathNode → List Nat → List Nat → List Nat
  | 0, _, _, results => results
  | fuel + 1, heap, visited, results =>
    match popMin heap with
    | none => results
    | some (pn, rest) =>
      if visited.contains pn.id then
        findPathsLoop pf g fuel rest visited results
      else if (results ++ [pn.id]).length ≥ pf.max_results then results ++ [pn.id]
      else if pn.depth ≥ pf.max_depth then
        findPathsLoop pf g fuel rest (pn.id :: visited) (results ++ [pn.id])
      else
        findPathsLoop pf g fuel
          (rest ++ pushNeighbors g edgeCostFindPaths (pn.id :: visited) pn.id pn.cost pn.depth)
          (pn.id :: visited) (results ++ [pn.id])

/-- `PathFinder::find_paths` (path_finder.rs lines 54-112). -/
def PathFinder.find_paths (pf : PathFinder) (g : SessionGraph) (seed_nodes : List Nat) :
    List Nat :=
  findPathsLoop pf g (seed_nodes.length + g.edges.length + 1)
    (seed_nodes.map (fun s => { id := s, cost := 0, depth := 0 })) [] []

/-- The loop of `find_paths_token_aware` (path_finder.rs lines 137-189).
A popped unvisited id that is not in `nodes` is neither counted nor added
to the results, but its neighbors are still explored; an accepted node is
rejected (and the loop breaks) when its token estimate would exceed the
budget and the results are non-empty. -/
def tokenAwareLoop (pf : PathFinder) (g : SessionGraph) (target_tokens : Nat) :
    Nat → List PathNode → List Nat → List Nat → Nat → List Nat
  | 0, _, _, results, _ => results
  | fuel + 1, heap, visited, results, token_count =>
    match popMin heap with
    | none => results
    | some (pn, rest) =>
      if visited.contains pn.id then
        tokenAwareLoop pf g target_tokens fuel rest visited results token_count
      else
        match g.nodesGet pn.id with
        | some node =>
          if token_count + estimate_node_tokens node > target_tokens ∧ results ≠ [] then
            results
          else if (results ++ [pn.id]).length ≥ pf.max_results then results ++ [pn.id]
          else if pn.depth ≥ pf.max_depth then
            tokenAwareLoop pf g target_tokens fuel rest (pn.id :: visited)
              (results ++ [pn.id]) (token_count + estimate_node_tokens node)
          else
            tokenAwareLoop pf g target_tokens fuel
              (rest ++ pushNeighbors g edgeCostTokenAware (pn.id :: visited) pn.id pn.cost pn.depth)
              (pn.id :: visited) (results ++ [pn.id]) (token_count + estimate_node_tokens node)
        | none =>
          if results.length ≥ pf.max_results then results
          else if pn.depth ≥ pf.max_depth then
            tokenAwareLoop pf g target_tokens fuel rest (pn.id :: visited) results token_count
          else
            tokenAwareLoop pf g target_tokens fuel
              (rest ++ pushNeighbors g edgeCostTokenAware (pn.id :: visited) pn.id pn.cost pn.depth)
              (pn.id :: visited) results token_count

/-- `PathFinder::find_paths_token_aware` (path_finder.rs lines 116-194). -/
def PathFinder.find_paths_token_aware (pf : PathFinder) (g : SessionGraph)
    (seed_nodes : List Nat) (target_tokens : Nat) : List Nat :=
  tokenAwareLoop pf g target_tokens (seed_nodes.length + g.edges.length + 1)
    (seed_nodes.map (fun s => { id := s, cost := 0, depth := 0 })) [] [] 0

/-! ### Breadcrumb rows and the database model (vector_store.rs) -/

/-- `BreadcrumbRow` from vector_store.rs, restricted to the fields the
embedded code reads.  `ctxTrigger` abstracts
`context.get("trigger_event_id").and_then(as_str).and_then(Uuid::parse)`:
`none` when the field is absent or not a string, `some none` when the string
fails to parse, `some (some t)` when it parses to `t`. -/
structure BreadcrumbRow where
  id : Nat
  schema_name : String
  tags : List String
  ctxTrigger : Option (Option Nat)
  embedding : Option (List ℚ)
  entity_keywords : Option (List String)
  created_at : Int
deriving DecidableEq, Repr

/-- The `breadcrumbs` table: one row per breadcrumb. -/
structure Db where
  rows : List BreadcrumbRow
deriving Repr

/-- SQL `ORDER BY`, embedded as a stable sort (`List.insertionSort`; Rust's
`sort_by` is likewise stable, and stable sorts agree pointwise for a total
transitive comparator). -/
def sqlOrderBy {α : Type} (le : α → α → Prop) [DecidableRel le] (l : List α) : List α :=
  List.insertionSort le l

/-! ### Edge builder (graph/edge_builder.rs) -/

/-- `EdgeFeatures` from edge_builder.rs (edge_type: 0=causal, 1=temporal,
2=tag, 3=semantic). -/
structure EdgeFeatures where
  edge_type : Int
  weight : ℚ
  time_delta_sec : Option Int
  shared_tag_count : Option Int
  similarity : Option ℚ
deriving DecidableEq, Repr

/-- `EdgeFeatures::default` from edge_builder.rs. -/
def EdgeFeatures.default : EdgeFeatures :=
  { edge_type := 0, weight := 1, time_delta_sec := none,
    shared_tag_count := none, similarity := none }

/-- `count_shared_tags` (edge_builder.rs lines 286-290). -/
def count_shared_tags (tags1 tags2 : List String) : Nat :=
  (tags1.filter (fun t => tags2.contains t)).length

/-- `build_causal_edges` (edge_builder.rs lines 84-102): when
`trigger_event_id` parses, emit one pair `(trigger, {edge_type 0, weight
0.95})`; the existence of the trigger record is not checked. -/
def build_causal_edges (bc : BreadcrumbRow) : Option (List (Nat × EdgeFeatures)) :=
  match bc.ctxTrigger with
  | some (some trigger) =>
    some [(trigger, { EdgeFeatures.default with edge_type := 0, weight := 95/100 })]
  | _ => none

/-- The session-tag query of `build_tag_edges` (edge_builder.rs lines
116-126): rows whose tags overlap the session tags, excluding `bc` itself,
newest first, limit 100. -/
def sessionTagQuery (db : Db) (bc : BreadcrumbRow) (session_tags : List String) :
    List BreadcrumbRow :=
  (sqlOrderBy (fun a b => b.created_at ≤ a.created_at)
    (db.rows.filter (fun r =>
      r.tags.any (fun t => session_tags.contains t) && (r.id != bc.id)))).take 100

/-- The other-tag query of `build_tag_edges` (edge_builder.rs lines
149-159): same shape with limit 20. -/
def otherTagQuery (db : Db) (bc : BreadcrumbRow) (other_tags : List String) :
    List BreadcrumbRow :=
  (sqlOrderBy (fun a b => b.created_at ≤ a.created_at)
    (db.rows.filter (fun r =>
      r.tags.any (fun t => other_tags.contains t) && (r.id != bc.id)))).take 20

/-- `build_tag_edges` (edge_builder.rs lines 105-175); `session_tags` and
`other_tags` are written out in place of the source's local bindings. -/
def build_tag_edges (db : Db) (bc : BreadcrumbRow) : List (Nat × EdgeFeatures) :=
  (if (bc.tags.filter (fun t => t.startsWith "session:")).isEmpty then []
   else
     (sessionTagQuery db bc (bc.tags.filter (fun t => t.startsWith "session:"))).map
       (fun other =>
         (other.id,
           { EdgeFeatures.default with
               edge_type := 2, weight := 9/10,
               shared_tag_count := some (count_shared_tags bc.tags other.tags) })))
  ++
  (if !(bc.tags.filter (fun t =>
          !(t.startsWith "session:") && !(t.startsWith "system:"))).isEmpty
      && (bc.tags.filter (fun t => t.startsWith "session:")).isEmpty then
     (otherTagQuery db bc (bc.tags.filter (fun t =>
         !(t.startsWith "session:") && !(t.startsWith "system:")))).map
       (fun other =>
         (other.id,
           { EdgeFeatures.default with
               edge_type := 2,
               weight := min ((count_shared_tags bc.tags other.tags : ℚ)
                 / max (bc.tags.length : ℚ) 1) (8/10),
               shared_tag_count := some (count_shared_tags bc.tags other.tags : Int) }))
   else [])

/-- The temporal query of `build_temporal_edges` (edge_builder.rs lines
182-193): rows created within ±5 minutes, excluding `bc`, ordered by
absolute delta, limit 50. -/
def temporalQuery (db : Db) (bc : BreadcrumbRow) : List BreadcrumbRow :=
  (sqlOrderBy (fun a b => (a.created_at - bc.created_at).natAbs ≤ (b.created_at - bc.created_at).natAbs)
    (db.rows.filter (fun r =>
      (bc.created_at - 300 ≤ r.created_at) && (r.created_at ≤ bc.created_at + 300)
        && (r.id != bc.id)))).take 50

/-- `build_temporal_edges` (edge_builder.rs lines 178-211): the weight
decays linearly, `max (1 - delta/300) 0`. -/
def build_temporal_edges (db : Db) (bc : BreadcrumbRow) : List (Nat × EdgeFeatures) :=
  (temporalQuery db bc).map (fun other =>
    (other.id,
      { EdgeFeatures.default with
          edge_type := 1,
          weight := max (1 - ((bc.created_at - other.created_at).natAbs : ℚ) / 300) 0,
          time_delta_sec := some ((bc.created_at - other.created_at).natAbs : Int) }))

/-- The nearest-neighbor query of `build_semantic_edges` (edge_builder.rs
lines 220-231): rows with an embedding, excluding `bc`, ordered by vector
distance, limit 20, each scored `1 / (1 + dist)`. -/
def semanticQuery (dist : List ℚ → List ℚ → ℚ) (db : Db) (bc : BreadcrumbRow)
    (emb : List ℚ) : List (Nat × ℚ) :=
  ((sqlOrderBy (fun a b => a.2 ≤ b.2)
    (db.rows.filterMap (fun r =>
      match r.embedding with
      | some e => if r.id != bc.id then some (r.id, dist e emb) else none
      | none => none))).take 20).map (fun p => (p.1, 1 / (1 + p.2)))

/-- `build_semantic_edges` (edge_builder.rs lines 214-254): only neighbors
with similarity strictly above 0.8 produce edges. -/
def build_semantic_edges (dist : List ℚ → List ℚ → ℚ) (db : Db) (bc : BreadcrumbRow) :
    List (Nat × EdgeFeatures) :=
  match bc.embedding with
  | none => []
  | some emb =>
    (semanticQuery dist db bc emb).filterMap (fun p =>
      if p.2 > 8/10 then
        some (p.1,
          { EdgeFeatures.default with
              edge_type := 3, weight := p.2, similarity := some p.2 })
      else none)

/-- `build_edges_for_breadcrumb` (edge_builder.rs lines 49-81): the edge
sets are concatenated in the order causal, tag, temporal, semantic and then
handed to `insert_edges` with `from_id := bc.id`. -/
def build_edges_for_breadcrumb (dist : List ℚ → List ℚ → ℚ) (db : Db)
    (bc : BreadcrumbRow) : List (Nat × EdgeFeatures) :=
  ((build_causal_edges bc).getD []) ++ build_tag_edges db bc
    ++ build_temporal_edges db bc ++ build_semantic_edges dist db bc

/-- A row of the `breadcrumb_edges` table. -/
structure StoredEdge where
  from_id : Nat
  to_id : Nat
  edge_type : Int
  weight : ℚ
  time_delta_sec : Option Int
  shared_tag_count : Option Int
  similarity : Option ℚ
deriving DecidableEq, Repr

/-- One `INSERT ... ON CONFLICT (from_id, to_id) DO UPDATE` statement of
`insert_edges` (edge_builder.rs lines 259-278): on conflict the row keeps
its `edge_type` and replaces `weight`, `time_delta_sec`,
`shared_tag_count` and `similarity`. -/
def upsertEdge (store : List StoredEdge) (fr tid : Nat) (f : EdgeFeatures) :
    List StoredEdge :=
  if store.any (fun e => e.from_id == fr && e.to_id == tid) then
    store.map (fun e =>
      if e.from_id == fr && e.to_id == tid then
        { e with weight := f.weight, time_delta_sec := f.time_delta_sec,
                 shared_tag_count := f.shared_tag_count, similarity := f.similarity }
      else e)
  else
    store ++ [{ from_id := fr, to_id := tid, edge_type := f.edge_type,
                weight := f.weight, time_delta_sec := f.time_delta_sec,
                shared_tag_count := f.shared_tag_count, similarity := f.similarity }]

/-- `insert_edges` (edge_builder.rs lines 257-282): the emitted pairs are
upserted one by one, in order, all with the same `from_id`. -/
def insert_edges (store : List StoredEdge) (from_id : Nat)
    (edges : List (Nat × EdgeFeatures)) : List StoredEdge :=
  edges.foldl (fun s p => upsertEdge s from_id p.1 p.2) store

/-- The edges emitted by one run of the edge builder on `bc`, as
`(from_id, to_id, features)` triples: `insert_edges` is called with
`from_id = bc.id` for every pair. -/
def emittedEdges (dist : List ℚ → List ℚ → ℚ) (db : Db) (bc : BreadcrumbRow) :
    List (Nat × Nat × EdgeFeatures) :=
  (build_edges_for_breadcrumb dist db bc).map (fun p => (bc.id, p.1, p.2))

/-! ### Hybrid search (vector_store.rs, `find_similar_hybrid`) -/

/-- The `vec_score` CASE of the `scored` CTE (vector_store.rs lines
364-368): `1 / (1 + (embedding <=> $1))` when the row has an embedding,
else 0. -/
def vec_score (dist : List ℚ → List ℚ → ℚ) (v : List ℚ) (r : BreadcrumbRow) : ℚ :=
  match r.embedding with
  | some e => 1 / (1 + dist e v)
  | none => 0

/-- The `keyword_score` CASE of the `scored` CTE (vector_store.rs lines
370-377): `COUNT(DISTINCT kw)` over the row's `entity_keywords` that occur
in the query keywords, divided by the query keyword count, when the row has
`entity_keywords` and the count is positive, else 0. -/
def keyword_score (query_keywords : List String) (r : BreadcrumbRow) : ℚ :=
  match r.entity_keywords with
  | some kws =>
    if query_keywords.length > 0 then
      ((kws.dedup.filter (fun kw => query_keywords.contains kw)).length : ℚ)
        / (query_keywords.length : ℚ)
    else 0
  | none => 0

/-- `find_similar_hybrid` (vector_store.rs lines 315-410), session-less
branch with the session filter as an optional parameter: score every
non-blacklisted row, keep rows with `vec_score > 0 OR keyword_score > 0`,
order by `vec_score * 0.6 + keyword_score * 0.4` descending, take the
limit. -/
def find_similar_hybrid (dist : List ℚ → List ℚ → ℚ) (db : Db)
    (query_embedding : List ℚ) (query_keywords : List String) (limit : Nat)
    (session_filter : Option String) (blacklist : List String) : List BreadcrumbRow :=
  (sqlOrderBy (fun a b =>
      vec_score dist query_embedding b * (6/10) + keyword_score query_keywords b * (4/10)
        ≤ vec_score dist query_embedding a * (6/10) + keyword_score query_keywords a * (4/10))
    ((db.rows.filter (fun r =>
        (match session_filter with
         | some session => r.tags.contains session
         | none => true)
        && !(blacklist.contains r.schema_name))).filter (fun r =>
      decide (vec_score dist query_embedding r > 0
        ∨ keyword_score query_keywords r > 0)))).take limit

/-- Modelled from the spec (§4.2): the ranking as the specification words
it — fused score `0.6 · vec_score + 0.4 · kw_score`, candidates with
`vec_score = kw_score = 0` discarded.  Used only to compare against
`find_similar_hybrid`. -/
def specHybridRanking (dist : List ℚ → List ℚ → ℚ) (db : Db)
    (query_embedding : List ℚ) (query_keywords : List String) (limit : Nat)
    (session_filter : Option String) (blacklist : List String) : List BreadcrumbRow :=
  (sqlOrderBy (fun a b =>
      (6/10) * vec_score dist query_embedding b + (4/10) * keyword_score query_keywords b
        ≤ (6/10) * vec_score dist query_embedding a + (4/10) * keyword_score query_keywords a)
    ((db.rows.filter (fun r =>
        (match session_filter with
         | some session => r.tags.contains session
         | none => true)
        && !(blacklist.contains r.schema_name))).filter (fun r =>
      !(decide (vec_score dist query_embedding r = 0
        ∧ keyword_score query_keywords r = 0))))).take limit

/-! ### Event handler (event_handler.rs) -/

/-- `schema_priority` (event_handler.rs lines 450-462). -/
def schema_priority (schema : String) : Nat :=
  if schema == "tool.catalog.v1" then 0
  else if schema == "browser.page.context.v1" then 1
  else if schema == "browser.tab.context.v1" then 1
  else if schema == "user.message.v1" then 2
  else if schema == "agent.response.v1" then 2
  else if schema == "tool.response.v1" then 3
  else if schema == "knowledge.v1" then 4
  else if schema == "note.v1" then 4
  else 5

/-- The comparator of the `breadcrumbs.sort_by` call in
`assemble_and_publish` (event_handler.rs lines 304-314), as a total
preorder: priority ascending, and within equal priority `created_at`
descending. -/
def assembleLe (a b : BreadcrumbNode) : Prop :=
  schema_priority a.schema_name < schema_priority b.schema_name
    ∨ (schema_priority a.schema_name = schema_priority b.schema_name
        ∧ b.created_at ≤ a.created_at)

instance : DecidableRel assembleLe := fun a b => by
  unfold assembleLe; infer_instance

/-- The output ordering of `assemble_and_publish`: the stable sort of the
accepted records by `assembleLe` (Rust `sort_by` is stable). -/
def assembleSort (breadcrumbs : List BreadcrumbNode) : List BreadcrumbNode :=
  List.insertionSort assembleLe breadcrumbs

/-- The node-selection step of `assemble_and_publish` (event_handler.rs
lines 285-290): a `PathFinder::new(5, 50)` traversal from the single
trigger seed with a fixed target of 4000 tokens. -/
def assembleSelectNodes (g : SessionGraph) (trigger : Nat) : List Nat :=
  PathFinder.find_paths_token_aware { max_depth := 5, max_results := 50 } g [trigger] 4000

/-- `BreadcrumbEvent` from rcrt_client.rs. -/
structure BreadcrumbEvent where
  event_type : String
  breadcrumb_id : Option Nat
  schema_name : Option String
  tags : Option (List String)
deriving DecidableEq, Repr

/-- The dispatch decision of `handle_event` (event_handler.rs lines 72-93)
combined with the trigger guard at the top of `assemble_and_publish`
(lines 104-107): context assembly runs exactly when the event's schema is
`user.message.v1`, some tag starts with `session:`, and the event carries a
breadcrumb id; the result is the `(session_tag, trigger_id)` pair handed to
the assembly. -/
def handle_event_dispatch (event : BreadcrumbEvent) : Option (String × Nat) :=
  match event.schema_name with
  | none => none
  | some schema =>
    if schema == "user.message.v1" then
      match event.tags.bind (fun tags => tags.find? (fun t => t.startsWith "session:")) with
      | none => none
      | some session =>
        match event.breadcrumb_id with
        | none => none
        | some trigger => some (session, trigger)
    else none

/-- `ContextTrigger` from agent_config.rs. -/
structure ContextTrigger where
  schema_name : String
  all_tags : Option (List String)
  any_tags : Option (List String)
deriving DecidableEq, Repr

/-- Modelled from the spec (§4.6): the trigger-matcher predicate as the
claim states it — the event matches a definition's `context_trigger` iff
the schema names agree and, when `all_tags` is present every element
appears in the event's tags, else when `any_tags` is present at least one
element appears, else the schema match alone suffices.  No such matcher
exists in the source (only the `ContextTrigger` data and its loader do);
this definition is used only to compare against `handle_event_dispatch`. -/
def specTriggerMatches (trigger : ContextTrigger) (event : BreadcrumbEvent) : Bool :=
  (event.schema_name == some trigger.schema_name)
    && (match trigger.all_tags with
        | some req => req.all (fun t => (event.tags.getD []).contains t)
        | none =>
          match trigger.any_tags with
          | some req => req.any (fun t => (event.tags.getD []).contains t)
          | none => true)

/-! ### Token budget (llm_config.rs) -/

/-- `LlmConfig` from llm_config.rs. -/
structure LlmConfig where
  default_model : Option String
  max_tokens : Option Nat
  context_budget : Option Nat
deriving DecidableEq, Repr

/-- One entry of the `openrouter.models.catalog.v1` models array:
`get_model_info` reads its `id` and optional `context_length`. -/
structure ModelEntry where
  id : String
  context_length : Option Nat
deriving DecidableEq, Repr

/-- `get_model_info` (llm_config.rs lines 100-136): scan the catalog's
models array and return the `context_length` of the first entry whose `id`
matches and which carries a `context_length` (an entry with a matching id
but no `context_length` is skipped, the scan continues). -/
def get_model_info (model : String) (catalog : List ModelEntry) : Option Nat :=
  catalog.findSome? (fun entry =>
    if entry.id == model then entry.context_length else none)

/-- `calculate_context_budget` (llm_config.rs lines 61-92): an explicit
`context_budget` wins, else 75% of the catalog model's context length
(`(context_length as f32 * 0.75) as usize`, i.e. `3 * len / 4` — exact for
every realistic context length, since lengths below 2^24 / 3 are exact in
`f32`), else 50 000. -/
def calculate_context_budget (llm_config : Option LlmConfig)
    (catalog : List ModelEntry) : Nat :=
  match llm_config with
  | some config =>
    match config.context_budget with
    | some budget => budget
    | none =>
      match config.default_model with
      | some model =>
        match get_model_info model catalog with
        | some context_length => 3 * context_length / 4
        | none => 50000
      | none => 50000
  | none => 50000

/-- A concrete distance oracle for witnesses: the constant 0 (a valid
distance: it is nonnegative). -/
def distZero : List ℚ → List ℚ → ℚ := fun _ _ => 0

/-! ### Helper lemmas -/

theorem popMin_mem : ∀ {l : List PathNode} {m : PathNode} {rest : List PathNode},
    popMin l = some (m, rest) → m ∈ l := by
  intro l
  induction l with
  | nil => intro m rest h; simp [popMin] at h
  | cons x xs ih =>
    intro m rest h
    cases hx : popMin xs with
    | none =>
      simp only [popMin, hx, Option.some.injEq, Prod.mk.injEq] at h
      exact h.1 ▸ List.mem_cons_self x xs
    | some pr =>
      obtain ⟨m', rest'⟩ := pr
      simp only [popMin, hx] at h
      by_cases hc : x.cost ≤ m'.cost
      · rw [if_pos hc] at h
        simp only [Option.some.injEq, Prod.mk.injEq] at h
        exact h.1 ▸ List.mem_cons_self x xs
      · rw [if_neg hc] at h
        simp only [Option.some.injEq, Prod.mk.injEq] at h
        exact List.mem_cons_of_mem x (h.1 ▸ ih hx)

theorem popMin_ne_none (x : PathNode) (xs : List PathNode) : popMin (x :: xs) ≠ none := by
  cases hx : popMin xs with
  | none => simp [popMin, hx]
  | some pr =>
    obtain ⟨m, rest⟩ := pr
    by_cases hc : x.cost ≤ m.cost <;> simp [popMin, hx, hc]

theorem popMin_of_le (x : PathNode) (xs : List PathNode)
    (h : ∀ n ∈ xs, x.cost ≤ n.cost) : popMin (x :: xs) = some (x, xs) := by
  cases hx : popMin xs with
  | none =>
    cases xs with
    | nil => simp [popMin]
    | cons y ys => exact absurd hx (popMin_ne_none y ys)
  | some pr =>
    obtain ⟨m, rest⟩ := pr
    simp only [popMin, hx]
    rw [if_pos (h m (popMin_mem hx))]

/-- With a zero token budget, once the result list is non-empty the
token-aware loop can never accept another node of the graph (every node has
a positive token estimate, so the budget check fires), and ids outside the
graph are never appended: the loop returns the results unchanged. -/
theorem tokenAwareLoop_zero_absorb (pf : PathFinder) (g : SessionGraph)
    (hpos : ∀ n ∈ g.nodes, 0 < estimate_node_tokens n) :
    ∀ fuel heap visited results token_count, results ≠ [] →
      tokenAwareLoop pf g 0 fuel heap visited results token_count = results := by
  intro fuel
  induction fuel with
  | zero => intro heap visited results tc _; rfl
  | succ f ih =>
    intro heap visited results tc hres
    rw [tokenAwareLoop]
    cases hpop : popMin heap with
    | none => rfl
    | some pr =>
      obtain ⟨pn, rest⟩ := pr
      simp only []
      by_cases hv : visited.contains pn.id
      · simp only [hv, if_true]
        exact ih rest visited results tc hres
      · simp only [hv, Bool.false_eq_true, if_false]
        cases hnode : g.nodesGet pn.id with
        | some node =>
          have hmem : node ∈ g.nodes := List.mem_of_find?_eq_some hnode
          have hgt : 0 < estimate_node_tokens node := hpos node hmem
          simp only [hnode]
          rw [if_pos ⟨by omega, hres⟩]
        | none =>
          simp only [hnode]
          by_cases h1 : results.length ≥ pf.max_results
          · rw [if_pos h1]
          · rw [if_neg h1]
            by_cases h2 : pn.depth ≥ pf.max_depth
            · rw [if_pos h2]
              exact ih _ _ results tc hres
            · rw [if_neg h2]
              exact ih _ _ results tc hres

/-! ### Claim theorems -/

/-- C1 (amended): the two traversals use different edge-cost tables.
`find_paths` charges Causal 0.1, Temporal 0.3, TagRelated 0.5 and Semantic
`1 - w`; `find_paths_token_aware` charges Causal 0.1, TagRelated 0.3,
Temporal 0.5 and Semantic `1 - w` — the Temporal and TagRelated constants
are swapped between the two. -/
theorem C1_edge_cost_tables : ∀ w : ℚ,
    edgeCostFindPaths EdgeType.Causal w = 1/10 ∧
    edgeCostFindPaths EdgeType.Temporal w = 3/10 ∧
    edgeCostFindPaths EdgeType.TagRelated w = 1/2 ∧
    edgeCostFindPaths EdgeType.Semantic w = 1 - w ∧
    edgeCostTokenAware EdgeType.Causal w = 1/10 ∧
    edgeCostTokenAware EdgeType.TagRelated w = 3/10 ∧
    edgeCostTokenAware EdgeType.Temporal w = 1/2 ∧
    edgeCostTokenAware EdgeType.Semantic w = 1 - w := by
  intro w
  exact ⟨rfl, rfl, rfl, rfl, rfl, rfl, rfl, rfl⟩

/-- C1 counterexample: the claim that both traversals charge 0.3 for a
Temporal edge and 0.5 for a TagRelated edge is false — the token-aware
traversal charges 0.3 for TagRelated and 0.5 for Temporal. -/
theorem C1_counterexample :
    edgeCostTokenAware EdgeType.TagRelated (1/2) = 3/10 ∧
    edgeCostTokenAware EdgeType.TagRelated (1/2) ≠ 1/2 ∧
    edgeCostTokenAware EdgeType.Temporal (1/2) = 1/2 ∧
    edgeCostTokenAware EdgeType.Temporal (1/2) ≠ 3/10 ∧
    edgeCostFindPaths EdgeType.Temporal (1/2) = 3/10 ∧
    edgeCostFindPaths EdgeType.TagRelated (1/2) = 1/2 := by
  refine ⟨rfl, ?_, rfl, ?_, rfl, rfl⟩
  · norm_num [edgeCostTokenAware]
  · norm_num [edgeCostTokenAware]

/-- C7 (amended): the traversal adjacency is directed.  `(b, t, w)` is
enumerated among the neighbors of `a` exactly when the edge list contains
the edge `a → b` with that type and weight; an edge `a → b` alone does not
make `a` a neighbor of `b`. -/
theorem C7_neighbors_directed (g : SessionGraph) (a b : Nat) (t : EdgeType) (w : ℚ) :
    (b, t, w) ∈ g.neighbors a ↔ (⟨a, b, t, w⟩ : Edge) ∈ g.edges := by
  unfold SessionGraph.neighbors
  constructor
  · intro h
    obtain ⟨e, he, heq⟩ := List.mem_map.mp h
    obtain ⟨he1, he2⟩ := List.mem_filter.mp he
    have hfrom : e.from_id = a := by simpa using he2
    obtain ⟨h1, h2, h3⟩ : e.to_id = b ∧ e.edge_type = t ∧ e.weight = w := by
      simpa [Prod.ext_iff] using heq
    cases e
    simp_all
  · intro h
    exact List.mem_map.mpr ⟨⟨a, b, t, w⟩, List.mem_filter.mpr ⟨h, by simp⟩, rfl⟩

/-- C7 counterexample: in a graph with the single edge `1 → 2`, node 2 is a
neighbor of 1 but node 1 is not a neighbor of 2, so the traversal does not
treat the edge as undirected. -/
theorem C7_counterexample :
    SessionGraph.neighbors ⟨[], [⟨1, 2, EdgeType.Causal, 95/100⟩]⟩ 1
      = [(2, EdgeType.Causal, 95/100)] ∧
    SessionGraph.neighbors ⟨[], [⟨1, 2, EdgeType.Causal, 95/100⟩]⟩ 2 = [] :=
  ⟨rfl, rfl⟩

/-- C9 (amended): with a zero token budget, when every seed is a node of
the graph and every node of the graph has a positive token estimate,
`find_paths_token_aware` returns exactly the first seed: the first seed is
accepted (the budget check is skipped while the results are empty) and the
traversal stops at the next node of the graph it pops. -/
theorem C9_budget_zero (pf : PathFinder) (g : SessionGraph) (seeds : List Nat)
    (hne : seeds ≠ [])
    (hin : ∀ s ∈ seeds, (g.nodesGet s).isSome)
    (hpos : ∀ n ∈ g.nodes, 0 < estimate_node_tokens n) :
    pf.find_paths_token_aware g seeds 0 = [seeds.head hne] := by
  obtain ⟨s, ss, rfl⟩ := List.exists_cons_of_ne_nil hne
  show tokenAwareLoop pf g 0 ((s :: ss).length + g.edges.length + 1)
      ((s :: ss).map (fun t => { id := t, cost := 0, depth := 0 })) [] [] 0 = [s]
  have hpop : popMin ((s :: ss).map (fun t => ({ id := t, cost := 0, depth := 0 } : PathNode)))
      = some ({ id := s, cost := 0, depth := 0 },
              ss.map (fun t => { id := t, cost := 0, depth := 0 })) := by
    rw [List.map_cons]
    refine popMin_of_le _ _ ?_
    intro n hn
    obtain ⟨t, -, rfl⟩ := List.mem_map.mp hn
    exact le_refl 0
  obtain ⟨node, hnode⟩ := Option.isSome_iff_exists.mp (hin s (List.mem_cons_self s ss))
  have hmem : node ∈ g.nodes := List.mem_of_find?_eq_some hnode
  have hgt : 0 < estimate_node_tokens node := hpos node hmem
  rw [tokenAwareLoop, hpop]
  have hvis : ([] : List Nat).contains s = false := rfl
  simp only [hvis, Bool.false_eq_true, if_false, hnode]
  rw [if_neg (by simp)]
  simp only [List.nil_append]
  by_cases h1 : [s].length ≥ pf.max_results
  · rw [if_pos h1]
  · rw [if_neg h1]
    by_cases h2 : (0 : Nat) ≥ pf.max_depth
    · rw [if_pos h2]
      exact tokenAwareLoop_zero_absorb pf g hpos _ _ _ [s] _ (by simp)
    · rw [if_neg h2]
      exact tokenAwareLoop_zero_absorb pf g hpos _ _ _ [s] _ (by simp)

/-- C9 witness: a one-node graph whose node has a 4-character context (one
estimated token); the traversal with budget 0 returns exactly that seed. -/
theorem C9_witness :
    PathFinder.find_paths_token_aware ⟨5, 50⟩
      ⟨[⟨1, "user.message.v1", [], "abcd", 0, none⟩], []⟩ [1] 0 = [1] :=
  C9_budget_zero ⟨5, 50⟩ ⟨[⟨1, "user.message.v1", [], "abcd", 0, none⟩], []⟩ [1]
    (by decide) (by decide) (by decide)

/-- C9 counterexample: the claim fails without further conditions.  With a
seed that is not a node of the graph the result is empty (no node is
accepted), and with two zero-token nodes (empty serialized context) the
traversal accepts both, because `0 + 0 > 0` never fires the budget check. -/
theorem C9_counterexample :
    PathFinder.find_paths_token_aware ⟨5, 50⟩ ⟨[], []⟩ [7] 0 = [] ∧
    PathFinder.find_paths_token_aware ⟨5, 50⟩
      ⟨[⟨1, "user.message.v1", [], "", 0, none⟩,
        ⟨2, "user.message.v1", [], "", 0, none⟩], []⟩ [1, 2] 0 = [1, 2] := by
  decide

instance : IsTotal BreadcrumbNode assembleLe := ⟨by
  intro a b
  unfold assembleLe
  rcases Nat.lt_trichotomy (schema_priority a.schema_name) (schema_priority b.schema_name)
    with h | h | h
  · exact Or.inl (Or.inl h)
  · rcases Int.le_total b.created_at a.created_at with hc | hc
    · exact Or.inl (Or.inr ⟨h, hc⟩)
    · exact Or.inr (Or.inr ⟨h.symm, hc⟩)
  · exact Or.inr (Or.inl h)⟩

instance : IsTrans BreadcrumbNode assembleLe := ⟨by
  intro a b c hab hbc
  unfold assembleLe at *
  rcases hab with h | ⟨h1, h2⟩ <;> rcases hbc with h' | ⟨h1', h2'⟩
  · exact Or.inl (h.trans h')
  · exact Or.inl (h1' ▸ h)
  · exact Or.inl (h1 ▸ h')
  · exact Or.inr ⟨h1.trans h1', h2'.trans h2⟩⟩

/-- C4 (amended): the assembler sorts the accepted records stably by the
code's priority table — tool.catalog.v1 (0), then browser.page.context.v1
and browser.tab.context.v1 (1), then user.message.v1 and agent.response.v1
(2), then tool.response.v1 (3), then knowledge.v1 and note.v1 (4), then
everything else (5, including agent.catalog.v1) — most recent first by
`created_at` within equal priority. -/
theorem C4_output_ordering :
    (∀ l : List BreadcrumbNode,
        (assembleSort l).Sorted assembleLe ∧ List.Perm (assembleSort l) l) ∧
    schema_priority "tool.catalog.v1" = 0 ∧
    schema_priority "browser.page.context.v1" = 1 ∧
    schema_priority "browser.tab.context.v1" = 1 ∧
    schema_priority "user.message.v1" = 2 ∧
    schema_priority "agent.response.v1" = 2 ∧
    schema_priority "tool.response.v1" = 3 ∧
    schema_priority "knowledge.v1" = 4 ∧
    schema_priority "note.v1" = 4 ∧
    (∀ s : String, s ≠ "tool.catalog.v1" → s ≠ "browser.page.context.v1" →
      s ≠ "browser.tab.context.v1" → s ≠ "user.message.v1" → s ≠ "agent.response.v1" →
      s ≠ "tool.response.v1" → s ≠ "knowledge.v1" → s ≠ "note.v1" →
      schema_priority s = 5) := by
  refine ⟨?_, rfl, rfl, rfl, rfl, rfl, rfl, rfl, rfl, ?_⟩
  · intro l
    exact ⟨List.sorted_insertionSort assembleLe l, List.perm_insertionSort assembleLe l⟩
  · intro s h1 h2 h3 h4 h5 h6 h7 h8
    simp [schema_priority, beq_iff_eq, h1, h2, h3, h4, h5, h6, h7, h8]

/-- C4 witness: `agent.catalog.v1` lands in the catch-all priority 5
bucket. -/
theorem C4_witness : schema_priority "agent.catalog.v1" = 5 :=
  C4_output_ordering.2.2.2.2.2.2.2.2.2 "agent.catalog.v1"
    (by decide) (by decide) (by decide) (by decide)
    (by decide) (by decide) (by decide) (by decide)

/-- C4 counterexample: the claim's relative order puts knowledge.v1 before
user.message.v1 and gives agent.catalog.v1 its own rank; the code sorts a
user message (priority 2) before a knowledge record (priority 4) even when
the knowledge record is more recent, and ranks agent.catalog.v1 like any
unknown schema. -/
theorem C4_counterexample :
    assembleSort
        [⟨10, "knowledge.v1", [], "", 5, none⟩, ⟨11, "user.message.v1", [], "", 0, none⟩]
      = [⟨11, "user.message.v1", [], "", 0, none⟩, ⟨10, "knowledge.v1", [], "", 5, none⟩] ∧
    schema_priority "agent.catalog.v1" = schema_priority "zzz.unknown.v1" := by
  exact ⟨by decide, by decide⟩

/-- C5 (amended): the implemented assembly path always hands the traversal
a fixed 4000-token budget, and the repository's budget calculator — which
this path does not invoke — prefers the explicit `context_budget` over the
catalog: it returns the explicit budget when set, else
`floor(context_length * 0.75)` when `default_model` resolves in the model
catalog, else 50 000. -/
theorem C5_token_budget (g : SessionGraph) (trigger : Nat) (cfg : LlmConfig)
    (catalog : List ModelEntry) :
    assembleSelectNodes g trigger
      = PathFinder.find_paths_token_aware ⟨5, 50⟩ g [trigger] 4000
    ∧ (∀ b, cfg.context_budget = some b →
        calculate_context_budget (some cfg) catalog = b)
    ∧ (∀ m cl, cfg.context_budget = none → cfg.default_model = some m →
        get_model_info m catalog = some cl →
        calculate_context_budget (some cfg) catalog = 3 * cl / 4)
    ∧ (cfg.context_budget = none →
        (∀ m, cfg.default_model = some m → get_model_info m catalog = none) →
        calculate_context_budget (some cfg) catalog = 50000)
    ∧ calculate_context_budget none catalog = 50000 := by
  refine ⟨rfl, ?_, ?_, ?_, rfl⟩
  · intro b hb
    simp [calculate_context_budget, hb]
  · intro m cl h0 hm hcl
    simp [calculate_context_budget, h0, hm, hcl]
  · intro h0 hm
    cases hdm : cfg.default_model with
    | none => simp [calculate_context_budget, h0, hdm]
    | some m => simp [calculate_context_budget, h0, hdm, hm m hdm]

/-- C5 witness: with an explicit budget of 1000 and a catalog model of
context length 100 000, the calculator returns 1000. -/
theorem C5_witness :
    (⟨some "m", none, some 1000⟩ : LlmConfig).context_budget = some 1000 ∧
    calculate_context_budget (some ⟨some "m", none, some 1000⟩) [⟨"m", some 100000⟩] = 1000 :=
  ⟨rfl, (C5_token_budget ⟨[], []⟩ 7 ⟨some "m", none, some 1000⟩
    [⟨"m", some 100000⟩]).2.1 1000 rfl⟩

/-- C5 counterexample: the claim says the catalog hit wins, so the budget
should be `floor(100000 * 0.75) = 75000`; the code returns the explicit
`context_budget` 1000 even though the model resolves in the catalog. -/
theorem C5_counterexample :
    calculate_context_budget (some ⟨some "m", none, some 1000⟩) [⟨"m", some 100000⟩] = 1000 ∧
    get_model_info "m" [⟨"m", some 100000⟩] = some 100000 ∧
    (1000 : Nat) ≠ 3 * 100000 / 4 := by
  exact ⟨rfl, rfl, by decide⟩

/-- C6 (amended): context assembly is dispatched exactly when the event's
schema is the hardcoded `user.message.v1`, the event has a tag starting
with `session:`, and the event carries a breadcrumb id; the agent
definitions' `context_trigger` declarations are never consulted. -/
theorem C6_dispatch_iff (event : BreadcrumbEvent) :
    (handle_event_dispatch event).isSome ↔
      (event.schema_name = some "user.message.v1"
        ∧ (∃ tags, event.tags = some tags ∧ ∃ t ∈ tags, t.startsWith "session:" = true)
        ∧ event.breadcrumb_id.isSome = true) := by
  obtain ⟨et, bid, sn, tg⟩ := event
  constructor
  · intro h
    cases sn with
    | none => simp [handle_event_dispatch] at h
    | some schema =>
      by_cases hsc : schema = "user.message.v1"
      · subst hsc
        cases tg with
        | none => simp [handle_event_dispatch] at h
        | some tags =>
          cases hf : tags.find? (fun t => t.startsWith "session:") with
          | none => simp [handle_event_dispatch, hf] at h
          | some sess =>
            cases bid with
            | none => simp [handle_event_dispatch, hf] at h
            | some trigger =>
              have hmem := List.mem_of_find?_eq_some hf
              have hpre := List.find?_some hf
              exact ⟨rfl, ⟨tags, rfl, sess, hmem, hpre⟩, rfl⟩
      · simp [handle_event_dispatch, hsc] at h
  · rintro ⟨hsn, ⟨tags, htg, t, hmem, hpre⟩, hbid⟩
    cases sn with
    | none => exact absurd hsn (by simp)
    | some schema =>
      obtain rfl := Option.some.inj hsn
      cases tg with
      | none => exact absurd htg (by simp)
      | some tags' =>
        obtain rfl := Option.some.inj htg
        cases bid with
        | none => simp at hbid
        | some trigger =>
          cases hf : tags'.find? (fun t => t.startsWith "session:") with
          | none => exact absurd hpre (by simpa using List.find?_eq_none.mp hf t hmem)
          | some sess => simp [handle_event_dispatch, hf]

/-- C6 counterexample: an event of schema `foo.v1` matches a registered
trigger `{schema_name: "foo.v1"}` under the claimed matcher, yet the event
handler dispatches no assembly for it (it only reacts to
`user.message.v1`). -/
theorem C6_counterexample :
    specTriggerMatches ⟨"foo.v1", none, none⟩
        ⟨"bc.created", some 1, some "foo.v1", some ["x"]⟩ = true ∧
    handle_event_dispatch ⟨"bc.created", some 1, some "foo.v1", some ["x"]⟩ = none := by
  exact ⟨rfl, rfl⟩

theorem vec_score_nonneg (dist : List ℚ → List ℚ → ℚ) (v : List ℚ) (r : BreadcrumbRow)
    (hdist : ∀ x y, 0 ≤ dist x y) : 0 ≤ vec_score dist v r := by
  cases hemb : r.embedding with
  | none => simp [vec_score, hemb]
  | some e =>
    simp only [vec_score, hemb]
    have h := hdist e v
    exact le_of_lt (div_pos one_pos (by linarith))

theorem keyword_score_nonneg (K : List String) (r : BreadcrumbRow) :
    0 ≤ keyword_score K r := by
  cases hkw : r.entity_keywords with
  | none => simp [keyword_score, hkw]
  | some kws =>
    simp only [keyword_score, hkw]
    by_cases h : K.length > 0
    · rw [if_pos h]
      exact div_nonneg (Nat.cast_nonneg _) (Nat.cast_nonneg _)
    · rw [if_neg h]

theorem orderedInsert_congr {α : Type} (r s : α → α → Prop) [DecidableRel r] [DecidableRel s]
    (hrs : ∀ a b, r a b ↔ s a b) (a : α) :
    ∀ l : List α, List.orderedInsert r a l = List.orderedInsert s a l := by
  intro l
  induction l with
  | nil => rfl
  | cons b t ih =>
    rw [List.orderedInsert, List.orderedInsert]
    by_cases h : r a b
    · rw [if_pos h, if_pos ((hrs a b).mp h)]
    · rw [if_neg h, if_neg (fun hs => h ((hrs a b).mpr hs)), ih]

theorem insertionSort_congr {α : Type} (r s : α → α → Prop) [DecidableRel r] [DecidableRel s]
    (hrs : ∀ a b, r a b ↔ s a b) :
    ∀ l : List α, List.insertionSort r l = List.insertionSort s l := by
  intro l
  induction l with
  | nil => rfl
  | cons b t ih =>
    rw [List.insertionSort, List.insertionSort, ih, orderedInsert_congr r s hrs]

/-- C3 (confirmed): `find_similar_hybrid` realizes the spec's ranking: it
keeps exactly the candidates with a nonzero component and ranks them by the
fused score `0.6 · vec_score + 0.4 · kw_score`, with `vec_score = 1/(1 +
dist)` for rows with an embedding (else 0) and `kw_score = |distinct
entity_keywords ∩ K| / k` for rows with keywords when k > 0 (else 0). -/
theorem C3_hybrid_matches_spec (dist : List ℚ → List ℚ → ℚ) (db : Db) (v : List ℚ)
    (K : List String) (limit : Nat) (session : Option String) (blacklist : List String)
    (hdist : ∀ x y, 0 ≤ dist x y) :
    find_similar_hybrid dist db v K limit session blacklist
      = specHybridRanking dist db v K limit session blacklist := by
  unfold find_similar_hybrid specHybridRanking
  have hfilter : ∀ r : BreadcrumbRow,
      (decide (vec_score dist v r > 0 ∨ keyword_score K r > 0))
        = !(decide (vec_score dist v r = 0 ∧ keyword_score K r = 0)) := by
    intro r
    have hv := vec_score_nonneg dist v r hdist
    have hk := keyword_score_nonneg K r
    rw [← decide_not, decide_eq_decide]
    constructor
    · rintro (h | h) ⟨h1, h2⟩
      · exact absurd h1 (ne_of_gt h)
      · exact absurd h2 (ne_of_gt h)
    · intro h
      by_cases h1 : vec_score dist v r = 0
      · by_cases h2 : keyword_score K r = 0
        · exact absurd ⟨h1, h2⟩ h
        · exact Or.inr (lt_of_le_of_ne hk (Ne.symm h2))
      · exact Or.inl (lt_of_le_of_ne hv (Ne.symm h1))
  rw [List.filter_congr (fun r _ => hfilter r)]
  unfold sqlOrderBy
  rw [insertionSort_congr
    (fun a b : BreadcrumbRow =>
      vec_score dist v b * (6/10) + keyword_score K b * (4/10)
        ≤ vec_score dist v a * (6/10) + keyword_score K a * (4/10))
    (fun a b : BreadcrumbRow =>
      (6/10) * vec_score dist v b + (4/10) * keyword_score K b
        ≤ (6/10) * vec_score dist v a + (4/10) * keyword_score K a)
    (fun a b => by constructor <;> intro h <;> linarith)]

/-- C3 witness: the refinement theorem applied at a concrete store and
query (constant-zero distance oracle, which is nonnegative). -/
theorem C3_witness :
    find_similar_hybrid distZero
        ⟨[⟨1, "knowledge.v1", [], none, some [], some ["kafka", "offset"], 0⟩]⟩
        [] ["kafka"] 3 none []
      = specHybridRanking distZero
        ⟨[⟨1, "knowledge.v1", [], none, some [], some ["kafka", "offset"], 0⟩]⟩
        [] ["kafka"] 3 none [] :=
  C3_hybrid_matches_spec distZero
    ⟨[⟨1, "knowledge.v1", [], none, some [], some ["kafka", "offset"], 0⟩]⟩
    [] ["kafka"] 3 none [] (fun _ _ => le_refl 0)

theorem mem_of_mem_sqlOrderBy {α : Type} {le : α → α → Prop} [DecidableRel le] {a : α}
    {l : List α} (h : a ∈ sqlOrderBy le l) : a ∈ l := by
  unfold sqlOrderBy at h
  exact (List.perm_insertionSort le l).mem_iff.mp h

theorem mem_sessionTagQuery (db : Db) (bc : BreadcrumbRow) (ts : List String) :
    ∀ r ∈ sessionTagQuery db bc ts, r.id ≠ bc.id := by
  intro r hr
  unfold sessionTagQuery at hr
  have h1 := mem_of_mem_sqlOrderBy (List.take_subset _ _ hr)
  obtain ⟨-, hcond⟩ := List.mem_filter.mp h1
  simp only [Bool.and_eq_true, bne_iff_ne] at hcond
  exact hcond.2

theorem mem_otherTagQuery (db : Db) (bc : BreadcrumbRow) (ts : List String) :
    ∀ r ∈ otherTagQuery db bc ts, r.id ≠ bc.id := by
  intro r hr
  unfold otherTagQuery at hr
  have h1 := mem_of_mem_sqlOrderBy (List.take_subset _ _ hr)
  obtain ⟨-, hcond⟩ := List.mem_filter.mp h1
  simp only [Bool.and_eq_true, bne_iff_ne] at hcond
  exact hcond.2

theorem mem_temporalQuery (db : Db) (bc : BreadcrumbRow) :
    ∀ r ∈ temporalQuery db bc, r.id ≠ bc.id := by
  intro r hr
  unfold temporalQuery at hr
  have h1 := mem_of_mem_sqlOrderBy (List.take_subset _ _ hr)
  obtain ⟨-, hcond⟩ := List.mem_filter.mp h1
  simp only [Bool.and_eq_true, bne_iff_ne] at hcond
  exact hcond.2

theorem mem_semanticQuery (dist : List ℚ → List ℚ → ℚ) (db : Db) (bc : BreadcrumbRow)
    (emb : List ℚ) :
    ∀ q ∈ semanticQuery dist db bc emb, q.1 ≠ bc.id ∧ ∃ x, q.2 = 1 / (1 + dist x emb) := by
  intro q hq
  unfold semanticQuery at hq
  obtain ⟨p, hp, rfl⟩ := List.mem_map.mp hq
  have h1 := mem_of_mem_sqlOrderBy (List.take_subset _ _ hp)
  obtain ⟨r, hr, hg⟩ := List.mem_filterMap.mp h1
  cases hre : r.embedding with
  | none =>
    simp only [hre] at hg
    exact Option.noConfusion hg
  | some e =>
    simp only [hre] at hg
    by_cases hid : (r.id != bc.id) = true
    · rw [if_pos hid] at hg
      obtain ⟨h1, h2⟩ : r.id = p.1 ∧ dist e emb = p.2 := by
        simpa [Prod.ext_iff] using hg
      constructor
      · rw [← h1]
        simpa using hid
      · exact ⟨e, by rw [← h2]⟩
    · rw [if_neg hid] at hg
      simp at hg

theorem build_tag_edges_spec (db : Db) (bc : BreadcrumbRow) :
    ∀ p ∈ build_tag_edges db bc,
      p.2.edge_type = 2 ∧ p.1 ≠ bc.id ∧ 0 ≤ p.2.weight ∧ p.2.weight ≤ 1 := by
  intro p hp
  rw [build_tag_edges] at hp
  rcases List.mem_append.mp hp with hp | hp
  · by_cases hse : (bc.tags.filter (fun t => t.startsWith "session:")).isEmpty
    · rw [if_pos hse] at hp
      simp at hp
    · rw [if_neg hse] at hp
      obtain ⟨other, hother, rfl⟩ := List.mem_map.mp hp
      exact ⟨rfl, mem_sessionTagQuery db bc _ other hother, by norm_num, by norm_num⟩
  · by_cases hc : (!(bc.tags.filter (fun t =>
          !(t.startsWith "session:") && !(t.startsWith "system:"))).isEmpty
        && (bc.tags.filter (fun t => t.startsWith "session:")).isEmpty) = true
    · rw [if_pos hc] at hp
      obtain ⟨other, hother, rfl⟩ := List.mem_map.mp hp
      have hw0 : (0 : ℚ) ≤ (count_shared_tags bc.tags other.tags : ℚ)
          / max (bc.tags.length : ℚ) 1 :=
        div_nonneg (Nat.cast_nonneg _) (le_trans zero_le_one (le_max_right _ _))
      refine ⟨rfl, mem_otherTagQuery db bc _ other hother,
        le_min hw0 (by norm_num), le_trans (min_le_right _ _) (by norm_num)⟩
    · rw [if_neg hc] at hp
      simp at hp

theorem build_temporal_edges_spec (db : Db) (bc : BreadcrumbRow) :
    ∀ p ∈ build_temporal_edges db bc,
      p.2.edge_type = 1 ∧ p.1 ≠ bc.id ∧ 0 ≤ p.2.weight ∧ p.2.weight ≤ 1 := by
  intro p hp
  rw [build_temporal_edges] at hp
  obtain ⟨other, hother, rfl⟩ := List.mem_map.mp hp
  refine ⟨rfl, mem_temporalQuery db bc other hother, le_max_right _ _, ?_⟩
  apply max_le ?_ (by norm_num)
  have hd : (0 : ℚ) ≤ ((bc.created_at - other.created_at).natAbs : ℚ) / 300 :=
    div_nonneg (Nat.cast_nonneg _) (by norm_num)
  linarith

theorem build_semantic_edges_type (dist : List ℚ → List ℚ → ℚ) (db : Db)
    (bc : BreadcrumbRow) :
    ∀ p ∈ build_semantic_edges dist db bc, p.2.edge_type = 3 := by
  intro p hp
  rw [build_semantic_edges] at hp
  cases hre : bc.embedding with
  | none => simp only [hre, List.not_mem_nil] at hp
  | some emb =>
    simp only [hre] at hp
    obtain ⟨q, hq, hf⟩ := List.mem_filterMap.mp hp
    by_cases hgt : q.2 > 8/10
    · rw [if_pos hgt] at hf
      obtain rfl : (q.1, { EdgeFeatures.default with
          edge_type := 3, weight := q.2, similarity := some q.2 }) = p := by
        simpa using hf
      rfl
    · rw [if_neg hgt] at hf
      simp at hf

theorem build_semantic_edges_spec (dist : List ℚ → List ℚ → ℚ) (db : Db)
    (bc : BreadcrumbRow) (hdist : ∀ x y, 0 ≤ dist x y) :
    ∀ p ∈ build_semantic_edges dist db bc,
      p.2.edge_type = 3 ∧ p.1 ≠ bc.id ∧ 0 ≤ p.2.weight ∧ p.2.weight ≤ 1 := by
  intro p hp
  rw [build_semantic_edges] at hp
  cases hre : bc.embedding with
  | none => simp only [hre, List.not_mem_nil] at hp
  | some emb =>
    simp only [hre] at hp
    obtain ⟨q, hq, hf⟩ := List.mem_filterMap.mp hp
    by_cases hgt : q.2 > 8/10
    · rw [if_pos hgt] at hf
      obtain ⟨hne, x, hx⟩ := mem_semanticQuery dist db bc emb q hq
      obtain rfl : (q.1, { EdgeFeatures.default with
          edge_type := 3, weight := q.2, similarity := some q.2 }) = p := by
        simpa using hf
      refine ⟨rfl, hne, le_of_lt (lt_trans (by norm_num) hgt), ?_⟩
      rw [hx]
      have h := hdist x emb
      rw [div_le_one (by linarith)]
      linarith
    · rw [if_neg hgt] at hf
      simp at hf

theorem build_causal_edges_spec (bc : BreadcrumbRow) :
    ∀ p ∈ (build_causal_edges bc).getD [],
      p.2.edge_type = 0 ∧ p.2.weight = 95/100 ∧ (∃ t, bc.ctxTrigger = some (some t) ∧ p.1 = t) := by
  intro p hp
  rw [build_causal_edges] at hp
  cases hct : bc.ctxTrigger with
  | none => simp only [hct, Option.getD_none, List.not_mem_nil] at hp
  | some inner =>
    cases inner with
    | none => simp only [hct, Option.getD_none, List.not_mem_nil] at hp
    | some t =>
      simp only [hct, Option.getD_some, List.mem_singleton] at hp
      subst hp
      exact ⟨rfl, rfl, t, rfl, rfl⟩

/-- C8 (amended): every edge the builder emits has weight in [0, 1], and
`from_id ≠ to_id` holds for every tag, temporal and semantic edge — and for
the causal edge too unless the record names its own id as
`trigger_event_id`, in which case a self-loop is emitted. -/
theorem C8_edge_invariant (dist : List ℚ → List ℚ → ℚ) (db : Db) (bc : BreadcrumbRow)
    (hdist : ∀ x y, 0 ≤ dist x y) :
    ∀ e ∈ emittedEdges dist db bc,
      (0 ≤ e.2.2.weight ∧ e.2.2.weight ≤ 1) ∧
      (e.1 ≠ e.2.1 ∨ (e.2.2.edge_type = 0 ∧ bc.ctxTrigger = some (some bc.id))) := by
  intro e he
  rw [emittedEdges] at he
  obtain ⟨p, hp, rfl⟩ := List.mem_map.mp he
  rw [build_edges_for_breadcrumb] at hp
  rcases List.mem_append.mp hp with hp' | hp4
  rotate_left
  · -- semantic
    obtain ⟨-, hne, h0, h1⟩ := build_semantic_edges_spec dist db bc hdist p hp4
    exact ⟨⟨h0, h1⟩, Or.inl (fun h => hne h.symm)⟩
  rcases List.mem_append.mp hp' with hp'' | hp3
  rotate_left
  · -- temporal
    obtain ⟨-, hne, h0, h1⟩ := build_temporal_edges_spec db bc p hp3
    exact ⟨⟨h0, h1⟩, Or.inl (fun h => hne h.symm)⟩
  rcases List.mem_append.mp hp'' with hp1 | hp2
  · -- causal
    obtain ⟨hty, hw, t, hct, hpt⟩ := build_causal_edges_spec bc p hp1
    refine ⟨⟨by rw [hw]; norm_num, by rw [hw]; norm_num⟩, ?_⟩
    by_cases hbt : bc.id = t
    · exact Or.inr ⟨hty, by rw [hct, hbt]⟩
    · exact Or.inl (fun h => hbt (h.trans hpt))
  · -- tag
    obtain ⟨-, hne, h0, h1⟩ := build_tag_edges_spec db bc p hp2
    exact ⟨⟨h0, h1⟩, Or.inl (fun h => hne h.symm)⟩

/-- C8 witness: a record with empty tags and no embedding whose
`trigger_event_id` parses to another id emits one causal edge, and the
invariant holds at it. -/
theorem C8_witness :
    (0 ≤ (95/100 : ℚ) ∧ (95/100 : ℚ) ≤ 1) ∧
    ((2 : Nat) ≠ 1 ∨
      ((0 : Int) = 0 ∧
        (⟨2, "agent.response.v1", [], some (some 1), none, none, 0⟩ : BreadcrumbRow).ctxTrigger
          = some (some 2))) :=
  C8_edge_invariant distZero ⟨[]⟩ ⟨2, "agent.response.v1", [], some (some 1), none, none, 0⟩
    (fun _ _ => le_refl 0)
    (2, 1, { EdgeFeatures.default with edge_type := 0, weight := 95/100 })
    (by rw [emittedEdges, build_edges_for_breadcrumb]; exact List.mem_singleton.mpr rfl)

/-- C8 counterexample: a record whose `trigger_event_id` is its own id
makes the builder emit a self-loop `(5, 5)`, violating `from_id ≠ to_id`. -/
theorem C8_counterexample :
    emittedEdges distZero ⟨[]⟩ ⟨5, "user.message.v1", [], some (some 5), none, none, 0⟩
      = [(5, 5, { EdgeFeatures.default with edge_type := 0, weight := 95/100 })] ∧
    (emittedEdges distZero ⟨[]⟩ ⟨5, "user.message.v1", [], some (some 5), none, none, 0⟩).any
      (fun e => e.1 == e.2.1) = true :=
  ⟨rfl, rfl⟩

/-- C2 (amended): when `trigger_event_id` parses to an id `t` (existence in
the store is not checked), the builder emits exactly one causal edge, and
its direction is `r → t`: `from_id = r.id`, `to_id = t`, weight 0.95; when
the field is absent, not a string, or unparseable, no causal edge is
emitted. -/
theorem C2_causal_edges (dist : List ℚ → List ℚ → ℚ) (db : Db) (bc : BreadcrumbRow) :
    (∀ t, bc.ctxTrigger = some (some t) →
      (emittedEdges dist db bc).filter (fun e => e.2.2.edge_type == 0)
        = [(bc.id, t, { EdgeFeatures.default with edge_type := 0, weight := 95/100 })]) ∧
    ((bc.ctxTrigger = none ∨ bc.ctxTrigger = some none) →
      (emittedEdges dist db bc).filter (fun e => e.2.2.edge_type == 0) = []) := by
  have htag : (build_tag_edges db bc).filter (fun p => p.2.edge_type == 0) = [] :=
    List.filter_eq_nil_iff.mpr (fun p hp => by
      have := (build_tag_edges_spec db bc p hp).1
      simp [this])
  have htemp : (build_temporal_edges db bc).filter (fun p => p.2.edge_type == 0) = [] :=
    List.filter_eq_nil_iff.mpr (fun p hp => by
      have := (build_temporal_edges_spec db bc p hp).1
      simp [this])
  have hsem : (build_semantic_edges dist db bc).filter (fun p => p.2.edge_type == 0) = [] :=
    List.filter_eq_nil_iff.mpr (fun p hp => by
      have := build_semantic_edges_type dist db bc p hp
      simp [this])
  have hcomp : ((fun e : Nat × Nat × EdgeFeatures => e.2.2.edge_type == 0)
      ∘ (fun p : Nat × EdgeFeatures => (bc.id, p.1, p.2)))
      = (fun p : Nat × EdgeFeatures => p.2.edge_type == 0) := rfl
  constructor
  · intro t ht
    have hcausal : ((build_causal_edges bc).getD []).filter (fun p => p.2.edge_type == 0)
        = [(t, { EdgeFeatures.default with edge_type := 0, weight := 95/100 })] := by
      simp only [build_causal_edges, ht, Option.getD_some]
      rfl
    rw [emittedEdges, List.filter_map, hcomp, build_edges_for_breadcrumb,
      List.filter_append, List.filter_append, List.filter_append,
      hcausal, htag, htemp, hsem]
    rfl
  · intro ht
    have hcausal : ((build_causal_edges bc).getD []).filter (fun p => p.2.edge_type == 0)
        = [] := by
      rcases ht with ht | ht <;> simp [build_causal_edges, ht]
    rw [emittedEdges, List.filter_map, hcomp, build_edges_for_breadcrumb,
      List.filter_append, List.filter_append, List.filter_append,
      hcausal, htag, htemp, hsem]
    rfl

/-- C2 witness: record 2 names record 1 as its trigger; exactly one causal
edge is emitted and it runs from 2 to 1 with weight 0.95. -/
theorem C2_witness :
    (emittedEdges distZero ⟨[⟨1, "user.message.v1", [], none, none, none, 0⟩,
        ⟨2, "agent.response.v1", [], some (some 1), none, none, 1000⟩]⟩
      ⟨2, "agent.response.v1", [], some (some 1), none, none, 1000⟩).filter
        (fun e => e.2.2.edge_type == 0)
      = [(2, 1, { EdgeFeatures.default with edge_type := 0, weight := 95/100 })] :=
  (C2_causal_edges distZero ⟨[⟨1, "user.message.v1", [], none, none, none, 0⟩,
        ⟨2, "agent.response.v1", [], some (some 1), none, none, 1000⟩]⟩
      ⟨2, "agent.response.v1", [], some (some 1), none, none, 1000⟩).1 1 rfl

/-- C2 counterexample: with records 1 (the trigger) and 2 (carrying
`trigger_event_id = 1`) in the store, the single emitted edge is
`(from_id = 2, to_id = 1)` — directed `r → t` — whereas the claim asserts
`from_id = t = 1, to_id = r = 2`. -/
theorem C2_counterexample :
    emittedEdges distZero ⟨[⟨1, "user.message.v1", [], none, none, none, 0⟩,
        ⟨2, "agent.response.v1", [], some (some 1), none, none, 1000⟩]⟩
      ⟨2, "agent.response.v1", [], some (some 1), none, none, 1000⟩
      = [(2, 1, { EdgeFeatures.default with edge_type := 0, weight := 95/100 })] ∧
    ((2 : Nat), (1 : Nat)) ≠ (1, 2) :=
  ⟨rfl, by decide⟩

theorem upsert_find_key (store : List StoredEdge) (fr tid : Nat) (f : EdgeFeatures) :
    (upsertEdge store fr tid f).find? (fun e => e.from_id == fr && e.to_id == tid)
      = some (match store.find? (fun e => e.from_id == fr && e.to_id == tid) with
        | some e => { e with
            weight := f.weight,
            time_delta_sec := f.time_delta_sec,
            shared_tag_count := f.shared_tag_count,
            similarity := f.similarity }
        | none => { from_id := fr, to_id := tid, edge_type := f.edge_type,
                    weight := f.weight, time_delta_sec := f.time_delta_sec,
                    shared_tag_count := f.shared_tag_count, similarity := f.similarity }) := by
  rw [upsertEdge]
  by_cases hany : store.any (fun e => e.from_id == fr && e.to_id == tid) = true
  · rw [if_pos hany]
    have hfind : (store.find? (fun e => e.from_id == fr && e.to_id == tid)).isSome := by
      rw [List.find?_isSome]
      exact List.any_eq_true.mp hany
    obtain ⟨e0, he0⟩ := Option.isSome_iff_exists.mp hfind
    have hkey := List.find?_some he0
    rw [List.find?_map]
    have hpres : ((fun e : StoredEdge => e.from_id == fr && e.to_id == tid) ∘
        (fun e => if e.from_id == fr && e.to_id == tid then
          { e with
            weight := f.weight,
            time_delta_sec := f.time_delta_sec,
            shared_tag_count := f.shared_tag_count,
            similarity := f.similarity }
          else e))
        = (fun e : StoredEdge => e.from_id == fr && e.to_id == tid) := by
      funext e
      by_cases hc : (e.from_id == fr && e.to_id == tid) = true
      · simp [Function.comp, hc]
      · simp [Function.comp, hc]
    rw [hpres, he0]
    simp only [Option.map_some']
    rw [if_pos hkey]
  · rw [if_neg hany]
    have hnone : store.find? (fun e => e.from_id == fr && e.to_id == tid) = none := by
      rw [← Option.not_isSome_iff_eq_none, List.find?_isSome]
      intro hex
      exact hany (List.any_eq_true.mpr hex)
    rw [List.find?_append, hnone]
    simp

theorem upsert_find_other (store : List StoredEdge) (fr tid' : Nat) (f : EdgeFeatures)
    (tid : Nat) (h : tid' ≠ tid) :
    (upsertEdge store fr tid' f).find? (fun e => e.from_id == fr && e.to_id == tid)
      = store.find? (fun e => e.from_id == fr && e.to_id == tid) := by
  rw [upsertEdge]
  by_cases hany : store.any (fun e => e.from_id == fr && e.to_id == tid') = true
  · rw [if_pos hany, List.find?_map]
    have hpres : ((fun e : StoredEdge => e.from_id == fr && e.to_id == tid) ∘
        (fun e => if e.from_id == fr && e.to_id == tid' then
          { e with
            weight := f.weight,
            time_delta_sec := f.time_delta_sec,
            shared_tag_count := f.shared_tag_count,
            similarity := f.similarity }
          else e))
        = (fun e : StoredEdge => e.from_id == fr && e.to_id == tid) := by
      funext e
      by_cases hc : (e.from_id == fr && e.to_id == tid') = true
      · simp [Function.comp, hc]
      · simp [Function.comp, hc]
    rw [hpres]
    cases hfind : store.find? (fun e => e.from_id == fr && e.to_id == tid) with
    | none => simp
    | some e0 =>
      have hkey := List.find?_some hfind
      simp only [Bool.and_eq_true, beq_iff_eq] at hkey
      have hto : (e0.to_id == tid') = false := by
        rw [hkey.2]
        exact beq_eq_false_iff_ne.mpr (fun hc => h hc.symm)
      have hne : (e0.from_id == fr && e0.to_id == tid') = false := by
        simp [hto]
      simp only [Option.map_some']
      rw [if_neg (by simp [hne])]
  · rw [if_neg hany, List.find?_append]
    have hsingle : List.find? (fun e : StoredEdge => e.from_id == fr && e.to_id == tid)
        [{ from_id := fr, to_id := tid', edge_type := f.edge_type,
           weight := f.weight, time_delta_sec := f.time_delta_sec,
           shared_tag_count := f.shared_tag_count, similarity := f.similarity }] = none := by
      have hb : (tid' == tid) = false := beq_eq_false_iff_ne.mpr h
      simp [List.find?, hb]
    rw [hsingle, Option.or_none]

/-- C10 (confirmed): the upsert keeps `edge_type` and replaces the weight
and diagnostic fields.  Concretely: `build_edges_for_breadcrumb` emits the
causal, tag, temporal and semantic edge lists in that order; a single
upsert on an existing `(from_id, to_id)` row keeps its `edge_type` and
replaces `weight`, `time_delta_sec`, `shared_tag_count` and `similarity`;
and after inserting a whole emitted batch into a store with no prior row
for the pair, the stored row carries the `edge_type` of the first emitted
edge for the pair and the weight and diagnostics of the last. -/
theorem C10_upsert_semantics (store : List StoredEdge) (fr tid : Nat)
    (edges : List (Nat × EdgeFeatures))
    (h0 : store.find? (fun e => e.from_id == fr && e.to_id == tid) = none) :
    (∀ (dist : List ℚ → List ℚ → ℚ) (db : Db) (bc : BreadcrumbRow),
      build_edges_for_breadcrumb dist db bc
        = (build_causal_edges bc).getD [] ++ build_tag_edges db bc
          ++ build_temporal_edges db bc ++ build_semantic_edges dist db bc) ∧
    (∀ (s : List StoredEdge) (f' : EdgeFeatures) (e : StoredEdge),
      s.find? (fun e => e.from_id == fr && e.to_id == tid) = some e →
      (upsertEdge s fr tid f').find? (fun e => e.from_id == fr && e.to_id == tid)
        = some { e with
            weight := f'.weight,
            time_delta_sec := f'.time_delta_sec,
            shared_tag_count := f'.shared_tag_count,
            similarity := f'.similarity }) ∧
    ((edges.filter (fun q => q.1 == tid)) = [] →
      (insert_edges store fr edges).find? (fun e => e.from_id == fr && e.to_id == tid)
        = none) ∧
    (∀ f0 fl, (edges.filter (fun q => q.1 == tid)).head? = some f0 →
      (edges.filter (fun q => q.1 == tid)).getLast? = some fl →
      (insert_edges store fr edges).find? (fun e => e.from_id == fr && e.to_id == tid)
        = some { from_id := fr, to_id := tid, edge_type := f0.2.edge_type,
                 weight := fl.2.weight, time_delta_sec := fl.2.time_delta_sec,
                 shared_tag_count := fl.2.shared_tag_count,
                 similarity := fl.2.similarity }) := by
  refine ⟨fun dist db bc => rfl, ?_, ?_⟩
  · intro s f' e he
    rw [upsert_find_key, he]
  · induction edges using List.reverseRecOn with
    | nil =>
      constructor
      · intro _
        rw [insert_edges, List.foldl_nil]
        exact h0
      · intro f0 fl hf0 _
        simp at hf0
    | append_singleton es p ih =>
      have hins : insert_edges store fr (es ++ [p])
          = upsertEdge (insert_edges store fr es) fr p.1 p.2 := by
        rw [insert_edges, insert_edges, List.foldl_append, List.foldl_cons, List.foldl_nil]
      by_cases hptid : (p.1 == tid) = true
      · have hpeq : p.1 = tid := by simpa using hptid
        have hfilter : (es ++ [p]).filter (fun q => q.1 == tid)
            = es.filter (fun q => q.1 == tid) ++ [p] := by
          rw [List.filter_append]
          simp [hptid]
        constructor
        · intro hnil
          rw [hfilter] at hnil
          simp at hnil
        · intro f0 fl hf0 hfl
          rw [hfilter] at hf0 hfl
          rw [List.getLast?_concat] at hfl
          obtain rfl : fl = p := by simpa using hfl.symm
          rw [hins, hpeq, upsert_find_key]
          cases hfes : es.filter (fun q => q.1 == tid) with
          | nil =>
            rw [hfes] at hf0
            obtain rfl : f0 = fl := by simpa using hf0.symm
            simp only [ih.1 hfes]
          | cons x xs =>
            rw [hfes, List.head?_append] at hf0
            obtain rfl : f0 = x := by simpa using hf0.symm
            have hlast := List.getLast?_eq_getLast (f0 :: xs) (List.cons_ne_nil f0 xs)
            have hrow := ih.2 f0 ((f0 :: xs).getLast (List.cons_ne_nil f0 xs))
              (by rw [hfes]; rfl) (by rw [hfes]; exact hlast)
            simp only [hrow]
      · have hpne : p.1 ≠ tid := by simpa using hptid
        have hfilter : (es ++ [p]).filter (fun q => q.1 == tid)
            = es.filter (fun q => q.1 == tid) := by
          rw [List.filter_append]
          simp [hptid]
        constructor
        · intro hnil
          rw [hfilter] at hnil
          rw [hins, upsert_find_other _ fr p.1 p.2 tid hpne]
          exact ih.1 hnil
        · intro f0 fl hf0 hfl
          rw [hfilter] at hf0 hfl
          rw [hins, upsert_find_other _ fr p.1 p.2 tid hpne]
          exact ih.2 f0 fl hf0 hfl

/-- C10 witness: inserting a causal-typed feature followed by a tag-typed
feature for the same pair yields a stored row with the causal `edge_type`
(0) and the tag edge's weight and diagnostics. -/
theorem C10_witness :
    (insert_edges [] 1
        [(2, { edge_type := 0, weight := 95/100, time_delta_sec := none,
               shared_tag_count := none, similarity := none }),
         (2, { edge_type := 2, weight := 9/10, time_delta_sec := none,
               shared_tag_count := some 3, similarity := none })]).find?
        (fun e => e.from_id == 1 && e.to_id == 2)
      = some { from_id := 1, to_id := 2, edge_type := 0, weight := 9/10,
               time_delta_sec := none, shared_tag_count := some 3,
               similarity := none } :=
  (C10_upsert_semantics [] 1 2
      [(2, { edge_type := 0, weight := 95/100, time_delta_sec := none,
             shared_tag_count := none, similarity := none }),
       (2, { edge_type := 2, weight := 9/10, time_delta_sec := none,
             shared_tag_count := some 3, similarity := none })] rfl).2.2.2
    (2, { edge_type := 0, weight := 95/100, time_delta_sec := none,
          shared_tag_count := none, similarity := none })
    (2, { edge_type := 2, weight := 9/10, time_delta_sec := none,
          shared_tag_count := some 3, similarity := none })
    rfl rfl

end Rcrt
